import Mathlib

/-!
Verification of the price-alert logic of the Real-Time Stock Monitor
dashboard scripts (appcode.py and data.py), shallowly embedded in Lean.

Prices are modelled as rationals (the scripts compare Python floats with
plain `>=` / `<=`; only order matters to the alert logic), timestamps as
natural-number ticks, and the two external effects as explicit parameters:

* the price source (`fetch_intraday` followed by taking the last close) is a
  function `String → Option ℚ`, returning `none` when the fetch fails or the
  dataframe is empty;
* the notification sink (`send_email`) is a function `String → Option String`
  from recipient to `none` on success or `some err` on failure, mirroring the
  `(True, None) / (False, str(e))` return of `send_email`.

Operator-visible UI effects (the `st.toast` banner and the
`st.success` / `st.error` outcome message of the email attempt) are collected
in a `Notice` list, tagged with the id of the alert that produced them.
-/

namespace StockMonitor

/-- The two alert directions offered by the appcode.py radio button
("Price rises to target" / "Price falls to target"). -/
inductive AlertType
  | risesTo
  | fallsTo
deriving DecidableEq, Repr

/-- An alert record as built by the Set Alert button of appcode.py
(lines 196-207).  `triggered_at` is absent until the evaluator fires the
alert, hence an `Option`. -/
structure Alert where
  id : Nat
  symbol : String
  target_price : ℚ
  alert_type : AlertType
  recipient_email : String
  triggered : Bool
  triggered_at : Option Nat
  created_at : Nat
deriving DecidableEq, Repr

/-- A row of `st.session_state.alert_history` as appended by
`check_alerts_and_notify` (appcode.py lines 306-314). -/
structure HistoryRecord where
  id : Nat
  symbol : String
  target_price : ℚ
  actual_price : ℚ
  alert_type : AlertType
  recipient_email : String
  triggered_at : Nat
deriving DecidableEq, Repr

/-- Operator-visible side effects of one evaluation pass, tagged with the id
of the alert that caused them: the `st.toast` banner, and the
`st.success` / `st.error` message reporting the outcome of `send_email`. -/
inductive Notice
  | toastAlert (id : Nat) (symbol : String)
  | emailSent (id : Nat) (recipient : String)
  | emailFailed (id : Nat) (recipient : String) (err : String)
deriving DecidableEq, Repr

/-- The alert-related slice of `st.session_state` in appcode.py: the live
alert list and the triggered-alert history. -/
structure EvalState where
  alerts : List Alert
  history : List HistoryRecord
deriving DecidableEq, Repr

/-- The trigger test of `check_alerts_and_notify` (appcode.py lines 296-301):
a rises-to alert fires when `latest_price >= target_price`, a falls-to alert
when `latest_price <= target_price`. -/
def trigger_condition (a : Alert) (latest_price : ℚ) : Bool :=
  match a.alert_type with
  | .risesTo => decide (a.target_price ≤ latest_price)
  | .fallsTo => decide (latest_price ≤ a.target_price)

/-- One iteration of the `for alert in st.session_state.alerts` loop body of
`check_alerts_and_notify` (appcode.py lines 288-323): skip when already
triggered; skip when the price fetch for the alert's symbol fails; otherwise
test the trigger condition and, on fire, set `triggered` and `triggered_at`,
emit the history record, the toast, and the email attempt whose outcome the
sink decides. -/
def processAlert (lookup : String → Option ℚ) (sink : String → Option String)
    (now : Nat) (a : Alert) : Alert × List HistoryRecord × List Notice :=
  if a.triggered then (a, [], [])
  else
    match lookup a.symbol with
    | none => (a, [], [])
    | some latest_price =>
      if trigger_condition a latest_price then
        let a' : Alert := { a with triggered := true, triggered_at := some now }
        let entry : HistoryRecord :=
          { id := a.id, symbol := a.symbol, target_price := a.target_price,
            actual_price := latest_price, alert_type := a.alert_type,
            recipient_email := a.recipient_email, triggered_at := now }
        let emailNotice : Notice :=
          match sink a.recipient_email with
          | none => .emailSent a.id a.recipient_email
          | some err => .emailFailed a.id a.recipient_email err
        (a', [entry], [.toastAlert a.id a.symbol, emailNotice])
      else (a, [], [])

/-- The full loop of `check_alerts_and_notify` over the alert list: the
updated records in place, the history entries appended, and the UI notices
emitted, all in loop order. -/
def runAlerts (lookup : String → Option ℚ) (sink : String → Option String)
    (now : Nat) : List Alert → List Alert × List HistoryRecord × List Notice
  | [] => ([], [], [])
  | a :: rest =>
    ((processAlert lookup sink now a).1 :: (runAlerts lookup sink now rest).1,
     (processAlert lookup sink now a).2.1 ++ (runAlerts lookup sink now rest).2.1,
     (processAlert lookup sink now a).2.2 ++ (runAlerts lookup sink now rest).2.2)

/-- One evaluation cycle: `check_alerts_and_notify` of appcode.py run against
the whole session state, with this cycle's price lookup and clock. -/
def check_alerts_and_notify (lookup : String → Option ℚ)
    (sink : String → Option String) (now : Nat) (s : EvalState) :
    EvalState × List Notice :=
  ({ alerts := (runAlerts lookup sink now s.alerts).1,
     history := s.history ++ (runAlerts lookup sink now s.alerts).2.1 },
   (runAlerts lookup sink now s.alerts).2.2)

/-- The Set Alert button of appcode.py (lines 196-210): the submission is
accepted only when the email is non-empty (Python truthiness of
`alert_email`) and the price is positive; the new record is appended with id
`len(st.session_state.alerts) + 1`, `triggered = False` and no
`triggered_at`. -/
def set_alert (symbol alert_email : String) (alert_price : ℚ)
    (ty : AlertType) (now : Nat) (alerts : List Alert) : List Alert :=
  if alert_email ≠ "" ∧ 0 < alert_price then
    alerts ++ [{ id := alerts.length + 1, symbol := symbol,
                 target_price := alert_price, alert_type := ty,
                 recipient_email := alert_email, triggered := false,
                 triggered_at := none, created_at := now }]
  else alerts

/-- The Remove all alerts button of appcode.py (lines 264-266):
`st.session_state.alerts = []`, replacing the whole collection. -/
def remove_all_alerts (_alerts : List Alert) : List Alert := []

/-- A sequence of monitoring reruns: each cycle runs
`check_alerts_and_notify` with that cycle's price lookup and clock; the UI
notices of all cycles accumulate in order. -/
def run_cycles (sink : String → Option String) :
    List ((String → Option ℚ) × Nat) → EvalState → EvalState × List Notice
  | [], s => (s, [])
  | (lookup, now) :: cycles, s =>
    ((run_cycles sink cycles (check_alerts_and_notify lookup sink now s).1).1,
     (check_alerts_and_notify lookup sink now s).2
       ++ (run_cycles sink cycles (check_alerts_and_notify lookup sink now s).1).2)

/-- An alert dict of data.py (line 96-101): `symbol`, `price`, `email`,
`time` — no triggered flag and no id. -/
structure DAlert where
  symbol : String
  price : ℚ
  email : String
  time : Nat
deriving DecidableEq, Repr

/-- `check_alerts` of data.py (lines 65-70): scan the alert list and collect,
by appending in loop order, every alert whose symbol matches and whose target
has been reached (`current_price >= alert['price']`).  The session alert list
itself is only read, never written. -/
def check_alerts (alerts : List DAlert) (symbol : String)
    (current_price : ℚ) : List DAlert :=
  alerts.foldl
    (fun triggered alert =>
      if alert.symbol == symbol && decide (alert.price ≤ current_price) then
        triggered ++ [alert]
      else triggered)
    []

/-- The Set Alert button of data.py (lines 94-104): only `alert_price > 0` is
checked; the email field is optional there and an empty email is accepted. -/
def data_set_alert (stock_symbol : String) (alert_price : ℚ)
    (user_email : String) (now : Nat) (alerts : List DAlert) : List DAlert :=
  if 0 < alert_price then
    alerts ++ [{ symbol := stock_symbol, price := alert_price,
                 email := user_email, time := now }]
  else alerts

/-- User and evaluator operations that touch the appcode.py alert list, for
lifetime statements about ids: creating an alert through the Set Alert
button, clearing the whole collection, and one evaluation cycle. -/
inductive Op
  | create (symbol email : String) (price : ℚ) (ty : AlertType) (now : Nat)
  | clearAll
  | evaluate (lookup : String → Option ℚ) (now : Nat)

/-- Apply one operation to the session state; also return the ids of the
records this operation created (the Set Alert button assigns
`len(alerts) + 1` exactly when it accepts the submission). -/
def applyOp (sink : String → Option String) (s : EvalState) :
    Op → EvalState × List Nat
  | .create symbol email price ty now =>
    ({ s with alerts := set_alert symbol email price ty now s.alerts },
     if email ≠ "" ∧ 0 < price then [s.alerts.length + 1] else [])
  | .clearAll => ({ s with alerts := remove_all_alerts s.alerts }, [])
  | .evaluate lookup now =>
    ((check_alerts_and_notify lookup sink now s).1, [])

/-- Apply a sequence of operations, collecting every id ever assigned to a
created record. -/
def applyOps (sink : String → Option String) :
    EvalState → List Op → EvalState × List Nat
  | s, [] => (s, [])
  | s, op :: ops =>
    ((applyOps sink (applyOp sink s op).1 ops).1,
     (applyOp sink s op).2 ++ (applyOps sink (applyOp sink s op).1 ops).2)

/-- The evaluator leaves an already-triggered record completely alone
(appcode.py lines 288-290: the loop continues past records whose triggered
flag is set). -/
lemma processAlert_of_triggered (lookup : String → Option ℚ)
    (sink : String → Option String) (now : Nat) (a : Alert)
    (h : a.triggered = true) : processAlert lookup sink now a = (a, [], []) := by
  simp [processAlert, h]

/-- If the price fetch for the record's symbol fails, the record is skipped
untouched (appcode.py lines 292-294). -/
lemma processAlert_of_fetch_failure (lookup : String → Option ℚ)
    (sink : String → Option String) (now : Nat) (a : Alert)
    (h : lookup a.symbol = none) : processAlert lookup sink now a = (a, [], []) := by
  by_cases ht : a.triggered = true
  · simp [processAlert, ht]
  · simp at ht
    simp [processAlert, ht, h]

/-- The updated alert list of one cycle is the pointwise image of the loop
body: no record is added, removed or reordered by the evaluator. -/
lemma runAlerts_fst (lookup : String → Option ℚ) (sink : String → Option String)
    (now : Nat) (as : List Alert) :
    (runAlerts lookup sink now as).1
      = as.map (fun a => (processAlert lookup sink now a).1) := by
  induction as with
  | nil => simp [runAlerts]
  | cons a rest ih => simp [runAlerts, ih]

/-- The loop body never changes a record whose output is still untriggered. -/
lemma processAlert_of_not_fired (lookup : String → Option ℚ)
    (sink : String → Option String) (now : Nat) (a : Alert)
    (h : (processAlert lookup sink now a).1.triggered = false) :
    processAlert lookup sink now a = (a, [], []) := by
  by_cases ht : a.triggered = true
  · exact processAlert_of_triggered lookup sink now a ht
  · simp at ht
    unfold processAlert at h ⊢
    simp [ht] at h ⊢
    cases hl : lookup a.symbol with
    | none => rfl
    | some p =>
      simp [hl] at h ⊢
      by_cases htr : trigger_condition a p = true
      · simp [htr] at h
      · simp at htr
        simp [htr]

/-- The loop body either leaves the record alone and emits nothing, or fires:
it sets the flags and emits exactly one history entry, the toast, and the
email-outcome notice the sink decides. -/
lemma processAlert_cases (lookup : String → Option ℚ) (sink : String → Option String)
    (now : Nat) (a : Alert) :
    processAlert lookup sink now a = (a, [], []) ∨
    ∃ p, lookup a.symbol = some p ∧ a.triggered = false ∧
      trigger_condition a p = true ∧
      processAlert lookup sink now a =
        ({ a with triggered := true, triggered_at := some now },
         [{ id := a.id, symbol := a.symbol, target_price := a.target_price,
            actual_price := p, alert_type := a.alert_type,
            recipient_email := a.recipient_email, triggered_at := now }],
         [Notice.toastAlert a.id a.symbol,
          match sink a.recipient_email with
          | none => Notice.emailSent a.id a.recipient_email
          | some err => Notice.emailFailed a.id a.recipient_email err]) := by
  by_cases ht : a.triggered = true
  · exact Or.inl (processAlert_of_triggered lookup sink now a ht)
  · simp at ht
    cases hl : lookup a.symbol with
    | none => exact Or.inl (processAlert_of_fetch_failure lookup sink now a hl)
    | some p =>
      by_cases htr : trigger_condition a p = true
      · refine Or.inr ⟨p, rfl, ht, htr, ?_⟩
        simp [processAlert, ht, hl, htr]
      · simp only [Bool.not_eq_true] at htr
        refine Or.inl ?_
        simp [processAlert, ht, hl, htr]

/-- The loop body never changes a record's id. -/
lemma processAlert_id (lookup : String → Option ℚ) (sink : String → Option String)
    (now : Nat) (a : Alert) : (processAlert lookup sink now a).1.id = a.id := by
  rcases processAlert_cases lookup sink now a with h | ⟨p, -, -, -, h⟩ <;> rw [h]

/-- The loop body appends at most one history entry per record. -/
lemma processAlert_fired_length (lookup : String → Option ℚ)
    (sink : String → Option String) (now : Nat) (a : Alert) :
    (processAlert lookup sink now a).2.1.length ≤ 1 := by
  rcases processAlert_cases lookup sink now a with h | ⟨p, -, -, -, h⟩ <;> simp [h]

/-- If the loop body emitted a history entry, the record came out triggered. -/
lemma processAlert_fired_nonempty (lookup : String → Option ℚ)
    (sink : String → Option String) (now : Nat) (a : Alert)
    (h : (processAlert lookup sink now a).2.1 ≠ []) :
    (processAlert lookup sink now a).1.triggered = true := by
  rcases processAlert_cases lookup sink now a with hc | ⟨p, -, -, -, hc⟩
  · rw [hc] at h; simp at h
  · rw [hc]

/-- Every history entry produced by the loop body carries the firing alert's
id and symbol, and the price the source actually returned. -/
lemma processAlert_fired (lookup : String → Option ℚ) (sink : String → Option String)
    (now : Nat) (a : Alert) (r : HistoryRecord)
    (hr : r ∈ (processAlert lookup sink now a).2.1) :
    r.id = a.id ∧ r.symbol = a.symbol ∧ lookup a.symbol = some r.actual_price := by
  rcases processAlert_cases lookup sink now a with h | ⟨p, hl, -, -, h⟩
  · rw [h] at hr
    simp at hr
  · rw [h] at hr
    simp at hr
    subst hr
    simp [hl]

/-- Test whether a notice is the toast banner of the alert with id n. -/
def isToastOf (n : Nat) : Notice → Bool
  | .toastAlert i _ => i == n
  | _ => false

/-- Per record, the loop body emits exactly one toast per history entry. -/
lemma processAlert_toast_count (lookup : String → Option ℚ)
    (sink : String → Option String) (now : Nat) (a : Alert) (n : Nat) :
    (processAlert lookup sink now a).2.2.countP (isToastOf n)
      = (processAlert lookup sink now a).2.1.countP (fun r => r.id == n) := by
  rcases processAlert_cases lookup sink now a with h | ⟨p, -, -, -, h⟩
  · simp [h]
  · rw [h]
    cases hs : sink a.recipient_email <;> simp [isToastOf, hs, List.countP_cons]

/-- When the price source fails for a symbol, that cycle produces no history
entry for that symbol. -/
lemma runAlerts_no_fired_for_failed_symbol (lookup : String → Option ℚ)
    (sink : String → Option String) (now : Nat) (as : List Alert) (sym : String)
    (hfail : lookup sym = none) :
    ∀ r ∈ (runAlerts lookup sink now as).2.1, r.symbol ≠ sym := by
  induction as with
  | nil => simp [runAlerts]
  | cons a rest ih =>
    intro r hr
    simp only [runAlerts, List.mem_append] at hr
    rcases hr with hr | hr
    · obtain ⟨-, hsy, hlk⟩ := processAlert_fired lookup sink now a r hr
      intro hcon
      rw [hcon] at hsy
      rw [← hsy] at hlk
      rw [hfail] at hlk
      exact Option.noConfusion hlk
    · exact ih r hr

/-- The evaluator never changes the id column of the alert list. -/
lemma runAlerts_ids (lookup : String → Option ℚ) (sink : String → Option String)
    (now : Nat) (as : List Alert) :
    (runAlerts lookup sink now as).1.map Alert.id = as.map Alert.id := by
  rw [runAlerts_fst, List.map_map]
  apply List.map_congr_left
  intro a _
  exact processAlert_id lookup sink now a

/-- Every history entry of one cycle carries the id of some alert of the list. -/
lemma runAlerts_fired_id_mem (lookup : String → Option ℚ)
    (sink : String → Option String) (now : Nat) (as : List Alert) :
    ∀ r ∈ (runAlerts lookup sink now as).2.1, r.id ∈ as.map Alert.id := by
  induction as with
  | nil => simp [runAlerts]
  | cons a rest ih =>
    intro r hr
    simp only [runAlerts, List.mem_append] at hr
    rcases hr with hr | hr
    · obtain ⟨hid, -, -⟩ := processAlert_fired lookup sink now a r hr
      simp [hid]
    · simp [ih r hr]

/-- All alerts carrying id n in the list are already triggered. -/
def allTriggeredWithId (n : Nat) (as : List Alert) : Bool :=
  as.all fun a => !(a.id == n) || a.triggered

lemma allTriggeredWithId_of_not_mem (n : Nat) (as : List Alert)
    (h : n ∉ as.map Alert.id) : allTriggeredWithId n as = true := by
  rw [allTriggeredWithId, List.all_eq_true]
  intro a ha
  have hne : a.id ≠ n := by
    intro hcon
    exact h (hcon ▸ List.mem_map_of_mem Alert.id ha)
  simp [hne]

/-- Once every id-n record is triggered, a cycle fires nothing for id n and
keeps every id-n record triggered. -/
lemma runAlerts_allTriggered (lookup : String → Option ℚ)
    (sink : String → Option String) (now : Nat) (n : Nat) (as : List Alert)
    (h : allTriggeredWithId n as = true) :
    (runAlerts lookup sink now as).2.1.countP (fun r => r.id == n) = 0 ∧
    allTriggeredWithId n (runAlerts lookup sink now as).1 = true := by
  induction as with
  | nil => simp [runAlerts, allTriggeredWithId]
  | cons a rest ih =>
    rw [allTriggeredWithId, List.all_cons, Bool.and_eq_true] at h
    obtain ⟨ha, hrest⟩ := h
    obtain ⟨ih1, ih2⟩ := ih hrest
    constructor
    · rw [runAlerts]
      simp only [List.countP_append]
      rw [ih1]
      by_cases hid : a.id = n
      · have htrig : a.triggered = true := by
          simp [hid] at ha
          exact ha
        rw [processAlert_of_triggered lookup sink now a htrig]
        simp
      · have h0 : (processAlert lookup sink now a).2.1.countP
            (fun r => r.id == n) = 0 := by
          rw [List.countP_eq_zero]
          intro r hr
          obtain ⟨hid', -, -⟩ := processAlert_fired lookup sink now a r hr
          simp [hid', hid]
        omega
    · rw [runAlerts, allTriggeredWithId, List.all_cons, Bool.and_eq_true]
      refine ⟨?_, ih2⟩
      by_cases hid : a.id = n
      · have htrig : a.triggered = true := by
          simp [hid] at ha
          exact ha
        rw [processAlert_of_triggered lookup sink now a htrig]
        simp [htrig]
      · have := processAlert_id lookup sink now a
        simp [this, hid]


/-- With pairwise-distinct ids, one cycle fires at most one entry for id n. -/
lemma runAlerts_fired_count_le_one (lookup : String → Option ℚ)
    (sink : String → Option String) (now : Nat) (n : Nat) (as : List Alert)
    (h : (as.map Alert.id).Nodup) :
    (runAlerts lookup sink now as).2.1.countP (fun r => r.id == n) ≤ 1 := by
  induction as with
  | nil => simp [runAlerts]
  | cons a rest ih =>
    simp only [List.map_cons, List.nodup_cons] at h
    obtain ⟨hnot, hrest⟩ := h
    rw [runAlerts]
    simp only [List.countP_append]
    by_cases hid : a.id = n
    · have hrest0 : (runAlerts lookup sink now rest).2.1.countP
          (fun r => r.id == n) = 0 := by
        rw [List.countP_eq_zero]
        intro r hr
        have hmem := runAlerts_fired_id_mem lookup sink now rest r hr
        simp only [beq_iff_eq]
        intro hcon
        rw [hcon, ← hid] at hmem
        exact hnot hmem
      have hhead := le_trans
        (List.countP_le_length (fun r => r.id == n))
        (processAlert_fired_length lookup sink now a)
      omega
    · have hhead0 : (processAlert lookup sink now a).2.1.countP
          (fun r => r.id == n) = 0 := by
        rw [List.countP_eq_zero]
        intro r hr
        obtain ⟨hid', -, -⟩ := processAlert_fired lookup sink now a r hr
        simp [hid', hid]
      have := ih hrest
      omega

/-- With pairwise-distinct ids, a cycle that fires an entry for id n leaves
every id-n record of the output triggered. -/
lemma runAlerts_fired_triggers (lookup : String → Option ℚ)
    (sink : String → Option String) (now : Nat) (n : Nat) (as : List Alert)
    (h : (as.map Alert.id).Nodup)
    (hc : 1 ≤ (runAlerts lookup sink now as).2.1.countP (fun r => r.id == n)) :
    allTriggeredWithId n (runAlerts lookup sink now as).1 = true := by
  induction as with
  | nil => simp [runAlerts] at hc
  | cons a rest ih =>
    simp only [List.map_cons, List.nodup_cons] at h
    obtain ⟨hnot, hrest⟩ := h
    rw [runAlerts] at hc
    simp only [List.countP_append] at hc
    rw [runAlerts, allTriggeredWithId, List.all_cons, Bool.and_eq_true]
    by_cases hid : a.id = n
    · have hrest0 : (runAlerts lookup sink now rest).2.1.countP
          (fun r => r.id == n) = 0 := by
        rw [List.countP_eq_zero]
        intro r hr
        have hmem := runAlerts_fired_id_mem lookup sink now rest r hr
        simp only [beq_iff_eq]
        intro hcon
        rw [hcon, ← hid] at hmem
        exact hnot hmem
      have hhead : 1 ≤ (processAlert lookup sink now a).2.1.countP
          (fun r => r.id == n) := by omega
      have hne : (processAlert lookup sink now a).2.1 ≠ [] := by
        intro hnil
        rw [hnil] at hhead
        simp at hhead
      have htrig := processAlert_fired_nonempty lookup sink now a hne
      refine ⟨by simp [htrig], ?_⟩
      rw [allTriggeredWithId] at *
      apply allTriggeredWithId_of_not_mem n (runAlerts lookup sink now rest).1
      rw [runAlerts_ids]
      rw [← hid]
      exact hnot
    · have hhead0 : (processAlert lookup sink now a).2.1.countP
          (fun r => r.id == n) = 0 := by
        rw [List.countP_eq_zero]
        intro r hr
        obtain ⟨hid', -, -⟩ := processAlert_fired lookup sink now a r hr
        simp [hid', hid]
      have hrest1 : 1 ≤ (runAlerts lookup sink now rest).2.1.countP
          (fun r => r.id == n) := by omega
      have hrest' := ih hrest hrest1
      rw [allTriggeredWithId] at hrest'
      refine ⟨?_, hrest'⟩
      have := processAlert_id lookup sink now a
      simp [this, hid]

/-- One cycle emits exactly one toast per history entry for each id. -/
lemma runAlerts_toast_count (lookup : String → Option ℚ)
    (sink : String → Option String) (now : Nat) (n : Nat) (as : List Alert) :
    (runAlerts lookup sink now as).2.2.countP (isToastOf n)
      = (runAlerts lookup sink now as).2.1.countP (fun r => r.id == n) := by
  induction as with
  | nil => simp [runAlerts]
  | cons a rest ih =>
    rw [runAlerts]
    simp only [List.countP_append]
    rw [ih, processAlert_toast_count]


/-- One cycle keeps the id column of the session alert list. -/
lemma cycle_ids (lookup : String → Option ℚ) (sink : String → Option String)
    (now : Nat) (s : EvalState) :
    (check_alerts_and_notify lookup sink now s).1.alerts.map Alert.id
      = s.alerts.map Alert.id := by
  simp [check_alerts_and_notify, runAlerts_ids]

/-- Unfolding equations for a run starting with one cycle. -/
lemma run_cycles_cons_fst (sink : String → Option String)
    (lookup : String → Option ℚ) (now : Nat)
    (cycles : List ((String → Option ℚ) × Nat)) (s : EvalState) :
    (run_cycles sink ((lookup, now) :: cycles) s).1
      = (run_cycles sink cycles (check_alerts_and_notify lookup sink now s).1).1 := rfl

lemma run_cycles_cons_snd (sink : String → Option String)
    (lookup : String → Option ℚ) (now : Nat)
    (cycles : List ((String → Option ℚ) × Nat)) (s : EvalState) :
    (run_cycles sink ((lookup, now) :: cycles) s).2
      = (check_alerts_and_notify lookup sink now s).2
        ++ (run_cycles sink cycles (check_alerts_and_notify lookup sink now s).1).2 := rfl

/-- One pending notification slot for id n: zero once every id-n record of
the list is triggered, one otherwise. -/
def pendingSlack (n : Nat) (as : List Alert) : Nat :=
  if allTriggeredWithId n as then 0 else 1

lemma pendingSlack_of_true {n : Nat} {as : List Alert}
    (h : allTriggeredWithId n as = true) : pendingSlack n as = 0 := by
  simp [pendingSlack, h]

lemma pendingSlack_le_one (n : Nat) (as : List Alert) :
    pendingSlack n as ≤ 1 := by
  rw [pendingSlack]
  split <;> omega

/-- Across any run, at most `pendingSlack` more id-n history entries are ever
added beyond what is already in the history. -/
lemma run_cycles_history_count (sink : String → Option String) (n : Nat) :
    ∀ (cycles : List ((String → Option ℚ) × Nat)) (s : EvalState),
      (s.alerts.map Alert.id).Nodup →
      (run_cycles sink cycles s).1.history.countP (fun r => r.id == n)
        ≤ s.history.countP (fun r => r.id == n) + pendingSlack n s.alerts := by
  intro cycles
  induction cycles with
  | nil =>
    intro s hnd
    simp only [run_cycles]
    exact Nat.le_add_right _ _
  | cons c cycles ih =>
    intro s hnd
    obtain ⟨lookup, now⟩ := c
    rw [run_cycles_cons_fst]
    have hnd1 : ((check_alerts_and_notify lookup sink now s).1.alerts.map
        Alert.id).Nodup := by
      rw [cycle_ids]
      exact hnd
    have hih := ih (check_alerts_and_notify lookup sink now s).1 hnd1
    have hhist : (check_alerts_and_notify lookup sink now s).1.history.countP
        (fun r => r.id == n)
        = s.history.countP (fun r => r.id == n)
          + (runAlerts lookup sink now s.alerts).2.1.countP
              (fun r => r.id == n) := by
      simp [check_alerts_and_notify, List.countP_append]
    by_cases hall : allTriggeredWithId n s.alerts = true
    · obtain ⟨hf0, hall1⟩ := runAlerts_allTriggered lookup sink now n s.alerts hall
      have hp1 : pendingSlack n
          (check_alerts_and_notify lookup sink now s).1.alerts = 0 := by
        apply pendingSlack_of_true
        simpa [check_alerts_and_notify] using hall1
      have hp0 : pendingSlack n s.alerts = 0 := pendingSlack_of_true hall
      omega
    · have hp0 : pendingSlack n s.alerts = 1 := by
        simp only [pendingSlack]
        rw [if_neg hall]
      by_cases h1 : 1 ≤ (runAlerts lookup sink now s.alerts).2.1.countP
          (fun r => r.id == n)
      · have hall1 := runAlerts_fired_triggers lookup sink now n s.alerts hnd h1
        have hp1 : pendingSlack n
            (check_alerts_and_notify lookup sink now s).1.alerts = 0 := by
          apply pendingSlack_of_true
          simpa [check_alerts_and_notify] using hall1
        have hle1 := runAlerts_fired_count_le_one lookup sink now n s.alerts hnd
        omega
      · have h0 : (runAlerts lookup sink now s.alerts).2.1.countP
            (fun r => r.id == n) = 0 := by omega
        have hp1 := pendingSlack_le_one n
          (check_alerts_and_notify lookup sink now s).1.alerts
        omega

/-- Across any run, at most `pendingSlack` id-n toasts are emitted. -/
lemma run_cycles_toast_count (sink : String → Option String) (n : Nat) :
    ∀ (cycles : List ((String → Option ℚ) × Nat)) (s : EvalState),
      (s.alerts.map Alert.id).Nodup →
      (run_cycles sink cycles s).2.countP (isToastOf n)
        ≤ pendingSlack n s.alerts := by
  intro cycles
  induction cycles with
  | nil =>
    intro s hnd
    simp only [run_cycles, List.countP_nil]
    omega
  | cons c cycles ih =>
    intro s hnd
    obtain ⟨lookup, now⟩ := c
    rw [run_cycles_cons_snd]
    simp only [List.countP_append]
    have hnd1 : ((check_alerts_and_notify lookup sink now s).1.alerts.map
        Alert.id).Nodup := by
      rw [cycle_ids]
      exact hnd
    have hih := ih (check_alerts_and_notify lookup sink now s).1 hnd1
    have hcyc : (check_alerts_and_notify lookup sink now s).2.countP (isToastOf n)
        = (runAlerts lookup sink now s.alerts).2.1.countP (fun r => r.id == n) := by
      simp [check_alerts_and_notify, runAlerts_toast_count]
    by_cases hall : allTriggeredWithId n s.alerts = true
    · obtain ⟨hf0, hall1⟩ := runAlerts_allTriggered lookup sink now n s.alerts hall
      have hp1 : pendingSlack n
          (check_alerts_and_notify lookup sink now s).1.alerts = 0 := by
        apply pendingSlack_of_true
        simpa [check_alerts_and_notify] using hall1
      have hp0 : pendingSlack n s.alerts = 0 := pendingSlack_of_true hall
      omega
    · have hp0 : pendingSlack n s.alerts = 1 := by
        simp only [pendingSlack]
        rw [if_neg hall]
      by_cases h1 : 1 ≤ (runAlerts lookup sink now s.alerts).2.1.countP
          (fun r => r.id == n)
      · have hall1 := runAlerts_fired_triggers lookup sink now n s.alerts hnd h1
        have hp1 : pendingSlack n
            (check_alerts_and_notify lookup sink now s).1.alerts = 0 := by
          apply pendingSlack_of_true
          simpa [check_alerts_and_notify] using hall1
        have hle1 := runAlerts_fired_count_le_one lookup sink now n s.alerts hnd
        omega
      · have h0 : (runAlerts lookup sink now s.alerts).2.1.countP
            (fun r => r.id == n) = 0 := by omega
        have hp1 := pendingSlack_le_one n
          (check_alerts_and_notify lookup sink now s).1.alerts
        omega


/-- The id sequence 1..n, in the order the Set Alert button assigns ids to a
collection of size n built by appends. -/
def idList : Nat → List Nat
  | 0 => []
  | n + 1 => idList n ++ [n + 1]

lemma mem_idList {m n : Nat} (h : m ∈ idList n) : m ≤ n := by
  induction n with
  | zero => simp [idList] at h
  | succ k ih =>
    rw [idList, List.mem_append] at h
    rcases h with h | h
    · exact le_trans (ih h) (Nat.le_succ k)
    · simp at h
      omega

lemma idList_nodup (n : Nat) : (idList n).Nodup := by
  induction n with
  | zero => simp [idList]
  | succ k ih =>
    rw [idList]
    apply List.Nodup.append ih (List.nodup_singleton _)
    intro m hm hmm
    simp at hmm
    have := mem_idList hm
    omega

/-- The invariant the appcode.py session keeps: the live alert list carries
exactly the ids 1..length, in order. -/
def goodIds (s : EvalState) : Prop :=
  s.alerts.map Alert.id = idList s.alerts.length

/-- One cycle keeps the length of the session alert list. -/
lemma cycle_alerts_length (lookup : String → Option ℚ)
    (sink : String → Option String) (now : Nat) (s : EvalState) :
    (check_alerts_and_notify lookup sink now s).1.alerts.length
      = s.alerts.length := by
  simp [check_alerts_and_notify, runAlerts_fst]

lemma applyOp_goodIds (sink : String → Option String) (s : EvalState) (op : Op)
    (h : goodIds s) : goodIds (applyOp sink s op).1 := by
  cases op with
  | create symbol email price ty now =>
    unfold goodIds at h ⊢
    unfold applyOp set_alert
    by_cases hc : email ≠ "" ∧ 0 < price
    · simp only [if_pos hc]
      simp only [List.map_append, List.length_append, List.map_cons,
        List.map_nil, List.length_cons, List.length_nil]
      rw [h, idList]
    · simp only [if_neg hc]
      exact h
  | clearAll =>
    simp [applyOp, goodIds, remove_all_alerts, idList]
  | evaluate lookup now =>
    unfold goodIds at h ⊢
    have e : (applyOp sink s (Op.evaluate lookup now)).1
        = (check_alerts_and_notify lookup sink now s).1 := rfl
    rw [e, cycle_ids, cycle_alerts_length]
    exact h

lemma applyOps_goodIds (sink : String → Option String) :
    ∀ (ops : List Op) (s : EvalState), goodIds s →
      goodIds (applyOps sink s ops).1 := by
  intro ops
  induction ops with
  | nil => intro s h; exact h
  | cons op ops ih =>
    intro s h
    exact ih _ (applyOp_goodIds sink s op h)


/-- Folding append-if over a list from an accumulator is the accumulator
followed by a filter. -/
lemma foldl_append_filter {α : Type} (p : α → Bool) (l : List α) :
    ∀ acc : List α,
      l.foldl (fun t a => if p a then t ++ [a] else t) acc = acc ++ l.filter p := by
  induction l with
  | nil =>
    intro acc
    simp
  | cons a l ih =>
    intro acc
    by_cases h : p a = true
    · simp [List.foldl_cons, h, ih, List.filter_cons]
    · simp at h
      simp [List.foldl_cons, h, ih, List.filter_cons]

/-- The untriggered example record of the spec's worked example: symbol AAPL,
target price 150.00, direction rises-to. -/
def exampleAlert : Alert :=
  { id := 1, symbol := "AAPL", target_price := 150, alert_type := .risesTo,
    recipient_email := "user@example.com", triggered := false,
    triggered_at := none, created_at := 0 }

/-- An already-triggered example record. -/
def exampleTriggeredAlert : Alert :=
  { id := 2, symbol := "MSFT", target_price := 100, alert_type := .fallsTo,
    recipient_email := "user@example.com", triggered := true,
    triggered_at := some 1, created_at := 0 }

/-- A notification sink that always succeeds. -/
def alwaysOkSink : String → Option String := fun _ => none

/-- The spec's example price observations 148, 149.5, 150.0: one per cycle,
the same price for every symbol. -/
def examplePriceCycles : List ((String → Option ℚ) × Nat) :=
  [(fun _ => some 148, 1), (fun _ => some (Rat.divInt 299 2), 2),
   (fun _ => some 150, 3)]

/-- Three cycles whose prices keep the trigger condition of `exampleAlert`
true: the alert fires in the first cycle and must not notify again later. -/
def saturatedCycles : List ((String → Option ℚ) × Nat) :=
  [(fun _ => some 150, 1), (fun _ => some 151, 2), (fun _ => some 152, 3)]

/-- C1: for every untriggered alert record evaluated against a fetched price,
a rises-to alert fires exactly when price >= target_price and a falls-to
alert fires exactly when price <= target_price; and the spec's example — a
rises-to record with target 150.00 observing prices 148, 149.5, 150.0 —
triggers exactly once, on the third observation. -/
theorem C1_trigger_condition_bidirectional :
    (∀ (lookup : String → Option ℚ) (sink : String → Option String) (now : Nat)
        (a : Alert) (p : ℚ), a.triggered = false → lookup a.symbol = some p →
        (((processAlert lookup sink now a).1.triggered = true) ↔
          ((a.alert_type = .risesTo ∧ a.target_price ≤ p) ∨
           (a.alert_type = .fallsTo ∧ p ≤ a.target_price)))) ∧
    (run_cycles alwaysOkSink (examplePriceCycles.take 2)
        ⟨[exampleAlert], []⟩).1.history = [] ∧
    (run_cycles alwaysOkSink examplePriceCycles
        ⟨[exampleAlert], []⟩).1.history.length = 1 ∧
    ((run_cycles alwaysOkSink examplePriceCycles
        ⟨[exampleAlert], []⟩).1.alerts.map Alert.triggered) = [true] := by
  refine ⟨?_, by decide, by decide, by decide⟩
  intro lookup sink now a p ha hp
  unfold processAlert
  simp only [ha, Bool.false_eq_true, if_false, hp]
  cases hat : a.alert_type with
  | risesTo =>
    by_cases h : a.target_price ≤ p
    · simp [trigger_condition, hat, h, ha]
    · simp [trigger_condition, hat, h, ha]
  | fallsTo =>
    by_cases h : p ≤ a.target_price
    · simp [trigger_condition, hat, h, ha]
    · simp [trigger_condition, hat, h, ha]

/-- Witness for C1 at a concrete input: the price 150 reaches the target of
the example rises-to alert. -/
theorem C1_witness :
    ((processAlert (fun _ => some 150) alwaysOkSink 3 exampleAlert).1.triggered
        = true) ↔
      ((exampleAlert.alert_type = .risesTo ∧ exampleAlert.target_price ≤ 150) ∨
       (exampleAlert.alert_type = .fallsTo ∧
         (150 : ℚ) ≤ exampleAlert.target_price)) :=
  C1_trigger_condition_bidirectional.1 (fun _ => some 150) alwaysOkSink 3
    exampleAlert 150 rfl rfl

/-- C2: the triggered flag is monotonic under evaluation: one cycle maps the
alert list pointwise (removing nothing), a triggered record is returned
unchanged (never reset to untriggered), a record that comes out untriggered
was not modified at all, the Set Alert button keeps every existing record,
and only the clear-all button replaces the collection, with the empty one. -/
theorem C2_triggered_monotonic (lookup : String → Option ℚ)
    (sink : String → Option String) (now : Nat) (s : EvalState) (a x : Alert)
    (symbol email : String) (price : ℚ) (ty : AlertType) (t : Nat) :
    ((check_alerts_and_notify lookup sink now s).1.alerts
        = s.alerts.map (fun b => (processAlert lookup sink now b).1)) ∧
    (a.triggered = true → (processAlert lookup sink now a).1 = a) ∧
    ((processAlert lookup sink now a).1.triggered = false →
        (processAlert lookup sink now a).1 = a) ∧
    (x ∈ s.alerts → x ∈ set_alert symbol email price ty t s.alerts) ∧
    remove_all_alerts s.alerts = [] := by
  refine ⟨?_, ?_, ?_, ?_, rfl⟩
  · simp [check_alerts_and_notify, runAlerts_fst]
  · intro h
    rw [processAlert_of_triggered lookup sink now a h]
  · intro h
    rw [processAlert_of_not_fired lookup sink now a h]
  · intro hx
    unfold set_alert
    by_cases hc : email ≠ "" ∧ 0 < price
    · simp only [if_pos hc]
      exact List.mem_append_left _ hx
    · simp only [if_neg hc]
      exact hx

/-- Witness for C2 at a concrete input: an already-triggered falls-to record
is returned unchanged even though the price 99 is below its target 100. -/
theorem C2_witness :
    (processAlert (fun _ => some 99) alwaysOkSink 4 exampleTriggeredAlert).1
      = exampleTriggeredAlert :=
  (C2_triggered_monotonic (fun _ => some 99) alwaysOkSink 4 ⟨[], []⟩
      exampleTriggeredAlert exampleTriggeredAlert "AAPL" "ops@example.com" 1
      .risesTo 0).2.1 rfl

/-- C3: a record whose triggered flag is true is skipped by every later
evaluation cycle, and across any sequence of cycles each record (tracked by
its id, ids being pairwise distinct) yields at most one history entry and at
most one toast notification. -/
theorem C3_no_renotification (sink : String → Option String)
    (cycles : List ((String → Option ℚ) × Nat)) (s : EvalState) (n : Nat)
    (lookup : String → Option ℚ) (now : Nat) (a : Alert)
    (hids : (s.alerts.map Alert.id).Nodup) (hhist : s.history = []) :
    (run_cycles sink cycles s).1.history.countP (fun r => r.id == n) ≤ 1 ∧
    (run_cycles sink cycles s).2.countP (isToastOf n) ≤ 1 ∧
    (a.triggered = true → processAlert lookup sink now a = (a, [], [])) := by
  refine ⟨?_, ?_, processAlert_of_triggered lookup sink now a⟩
  · have h := run_cycles_history_count sink n cycles s hids
    rw [hhist] at h
    simp only [List.countP_nil, Nat.zero_add] at h
    exact le_trans h (pendingSlack_le_one n s.alerts)
  · exact le_trans (run_cycles_toast_count sink n cycles s hids)
      (pendingSlack_le_one n s.alerts)

/-- Witness for C3 at a concrete input: over three cycles whose prices all
satisfy the trigger condition, the example alert produces one history entry
and one toast, and a triggered record passes through evaluation untouched. -/
theorem C3_witness :
    (run_cycles alwaysOkSink saturatedCycles
        ⟨[exampleAlert], []⟩).1.history.countP (fun r => r.id == 1) ≤ 1 ∧
    (run_cycles alwaysOkSink saturatedCycles
        ⟨[exampleAlert], []⟩).2.countP (isToastOf 1) ≤ 1 ∧
    processAlert (fun _ => some 150) alwaysOkSink 1 exampleTriggeredAlert
      = (exampleTriggeredAlert, [], []) :=
  ⟨(C3_no_renotification alwaysOkSink saturatedCycles ⟨[exampleAlert], []⟩ 1
      (fun _ => some 150) 1 exampleTriggeredAlert (by decide) rfl).1,
   (C3_no_renotification alwaysOkSink saturatedCycles ⟨[exampleAlert], []⟩ 1
      (fun _ => some 150) 1 exampleTriggeredAlert (by decide) rfl).2.1,
   (C3_no_renotification alwaysOkSink saturatedCycles ⟨[exampleAlert], []⟩ 1
      (fun _ => some 150) 1 exampleTriggeredAlert (by decide) rfl).2.2 rfl⟩

/-- C4: when a record fires, the evaluator sets triggered and triggered_at
and appends the history entry, and the outcome of the notification sink
cannot revert any of it: with a failing sink the record is still triggered,
the history entry is emitted, and the failure surfaces as an error notice;
the state part of the result is the same under any other sink. -/
theorem C4_sink_failure_preserves_trigger (lookup : String → Option ℚ)
    (sink sink' : String → Option String) (now : Nat) (a : Alert) (p : ℚ)
    (err : String) (ha : a.triggered = false) (hp : lookup a.symbol = some p)
    (ht : trigger_condition a p = true)
    (hs : sink a.recipient_email = some err) :
    processAlert lookup sink now a =
      ({ a with triggered := true, triggered_at := some now },
       [{ id := a.id, symbol := a.symbol, target_price := a.target_price,
          actual_price := p, alert_type := a.alert_type,
          recipient_email := a.recipient_email, triggered_at := now }],
       [Notice.toastAlert a.id a.symbol,
        Notice.emailFailed a.id a.recipient_email err]) ∧
    (processAlert lookup sink' now a).1 = (processAlert lookup sink now a).1 ∧
    (processAlert lookup sink' now a).2.1
      = (processAlert lookup sink now a).2.1 := by
  refine ⟨?_, ?_, ?_⟩
  · simp [processAlert, ha, hp, ht, hs]
  · simp [processAlert, ha, hp, ht]
  · simp [processAlert, ha, hp, ht]

/-- Witness for C4 at a concrete input: a failing SMTP sink. -/
theorem C4_witness :
    processAlert (fun _ => some 150) (fun _ => some "connection refused") 1
        exampleAlert =
      ({ exampleAlert with triggered := true, triggered_at := some 1 },
       [{ id := exampleAlert.id, symbol := exampleAlert.symbol,
          target_price := exampleAlert.target_price, actual_price := 150,
          alert_type := exampleAlert.alert_type,
          recipient_email := exampleAlert.recipient_email,
          triggered_at := 1 }],
       [Notice.toastAlert exampleAlert.id exampleAlert.symbol,
        Notice.emailFailed exampleAlert.id exampleAlert.recipient_email
          "connection refused"]) ∧
    (processAlert (fun _ => some 150) alwaysOkSink 1 exampleAlert).1
      = (processAlert (fun _ => some 150)
          (fun _ => some "connection refused") 1 exampleAlert).1 ∧
    (processAlert (fun _ => some 150) alwaysOkSink 1 exampleAlert).2.1
      = (processAlert (fun _ => some 150)
          (fun _ => some "connection refused") 1 exampleAlert).2.1 :=
  C4_sink_failure_preserves_trigger (fun _ => some 150)
    (fun _ => some "connection refused") alwaysOkSink 1 exampleAlert 150
    "connection refused" rfl rfl (by decide) rfl

/-- C5: when the price source fails for a symbol during a cycle, every record
of that symbol is skipped completely unchanged and no history entry for that
symbol is appended, while the cycle still processes every record of the list
pointwise (records of other symbols are evaluated as usual). -/
theorem C5_price_failure_skips_symbol (lookup : String → Option ℚ)
    (sink : String → Option String) (now : Nat) (s : EvalState) (sym : String)
    (a : Alert) (hfail : lookup sym = none) (hsym : a.symbol = sym) :
    processAlert lookup sink now a = (a, [], []) ∧
    ((check_alerts_and_notify lookup sink now s).1.alerts
        = s.alerts.map (fun b => (processAlert lookup sink now b).1)) ∧
    ((check_alerts_and_notify lookup sink now s).1.history.filter
        (fun r => r.symbol == sym)
      = s.history.filter (fun r => r.symbol == sym)) := by
  refine ⟨?_, ?_, ?_⟩
  · exact processAlert_of_fetch_failure lookup sink now a (hsym ▸ hfail)
  · simp [check_alerts_and_notify, runAlerts_fst]
  · have hnil : ((runAlerts lookup sink now s.alerts).2.1.filter
        (fun r => r.symbol == sym)) = [] := by
      rw [List.filter_eq_nil_iff]
      intro r hr
      simpa using runAlerts_no_fired_for_failed_symbol lookup sink now
        s.alerts sym hfail r hr
    simp [check_alerts_and_notify, List.filter_append, hnil]

/-- Witness for C5 at a concrete input: a price source that fails for every
symbol leaves the example alert untouched. -/
theorem C5_witness :
    processAlert (fun _ => none) alwaysOkSink 1 exampleAlert
      = (exampleAlert, [], []) ∧
    ((check_alerts_and_notify (fun _ => none) alwaysOkSink 1
        ⟨[exampleAlert], []⟩).1.alerts
      = [exampleAlert].map
          (fun b => (processAlert (fun _ => none) alwaysOkSink 1 b).1)) ∧
    ((check_alerts_and_notify (fun _ => none) alwaysOkSink 1
        ⟨[exampleAlert], []⟩).1.history.filter (fun r => r.symbol == "AAPL")
      = ([] : List HistoryRecord).filter (fun r => r.symbol == "AAPL")) :=
  C5_price_failure_skips_symbol (fun _ => none) alwaysOkSink 1
    ⟨[exampleAlert], []⟩ "AAPL" exampleAlert rfl rfl

/-- C6: the clear-all button replaces the alert collection with the empty
collection, and any run of evaluation cycles over an empty collection leaves
the state untouched and emits no notices. -/
theorem C6_bulk_clear_stops_triggers (sink : String → Option String)
    (cycles : List ((String → Option ℚ) × Nat)) (s : EvalState)
    (hs : s.alerts = []) :
    remove_all_alerts s.alerts = [] ∧ run_cycles sink cycles s = (s, []) := by
  obtain ⟨als, hist⟩ := s
  simp only at hs
  subst hs
  refine ⟨rfl, ?_⟩
  induction cycles with
  | nil => rfl
  | cons c cycles ih =>
    obtain ⟨lookup, now⟩ := c
    simpa [run_cycles, check_alerts_and_notify, runAlerts] using ih

/-- Witness for C6 at a concrete input: the example price cycles over an
emptied collection do nothing. -/
theorem C6_witness :
    remove_all_alerts (EvalState.mk [] []).alerts = [] ∧
    run_cycles alwaysOkSink examplePriceCycles ⟨[], []⟩ = (⟨[], []⟩, []) :=
  C6_bulk_clear_stops_triggers alwaysOkSink examplePriceCycles ⟨[], []⟩ rfl

/-- C7 counterexample: ids are not unique across the lifetime of the session.
The Set Alert button assigns `len(alerts) + 1`, so the sequence create,
clear-all, create assigns id 1 to both created records. -/
theorem C7_counterexample :
    ¬ ((applyOps (fun _ => none) ⟨[], []⟩
        [.create "AAPL" "ops@example.com" 10 .risesTo 0, .clearAll,
         .create "MSFT" "eng@example.com" 20 .fallsTo 1]).2.Nodup) := by
  decide

/-- C7 (amended): each accepted submission gets id `collection size + 1`, so
ids are pairwise distinct within the live collection after any sequence of
create, evaluate and clear-all operations; uniqueness across the whole
session lifetime fails, since a clear-all restarts the numbering. -/
theorem C7_ids_unique_within_collection (sink : String → Option String)
    (ops : List Op) :
    ((applyOps sink ⟨[], []⟩ ops).1.alerts.map Alert.id).Nodup := by
  have h : goodIds (applyOps sink ⟨[], []⟩ ops).1 :=
    applyOps_goodIds sink ops ⟨[], []⟩ (by simp [goodIds, idList])
  unfold goodIds at h
  rw [h]
  exact idList_nodup _

/-- C8 counterexample: in data.py, the Set Alert button accepts a submission
with an empty recipient (the email field is optional there), so a record is
added to the collection. -/
theorem C8_counterexample :
    data_set_alert "AAPL" 10 "" 0 [] ≠ [] := by
  decide

/-- C8 (amended): in appcode.py a submission with a non-positive price or an
empty recipient is rejected and leaves the collection unchanged; in data.py
only the non-positive price is rejected — an empty recipient is accepted. -/
theorem C8_invalid_submission_rejected (symbol email : String) (price : ℚ)
    (ty : AlertType) (now tD : Nat) (alerts : List Alert)
    (dalerts : List DAlert) (demail : String)
    (h : price ≤ 0 ∨ email = "") :
    set_alert symbol email price ty now alerts = alerts ∧
    (price ≤ 0 → data_set_alert symbol price demail tD dalerts = dalerts) := by
  constructor
  · rw [set_alert, if_neg]
    rintro ⟨hne, hpos⟩
    rcases h with h | h
    · exact absurd hpos (not_lt.mpr h)
    · exact hne h
  · intro hle
    rw [data_set_alert, if_neg (not_lt.mpr hle)]

/-- Witness for C8 (amended) at a concrete input: price 0 is rejected by both
Set Alert buttons. -/
theorem C8_witness :
    set_alert "AAPL" "ops@example.com" 0 .risesTo 3 [] = [] ∧
    data_set_alert "AAPL" 0 "" 3 [] = [] :=
  ⟨(C8_invalid_submission_rejected "AAPL" "ops@example.com" 0 .risesTo 3 3 []
      [] "" (Or.inl (by decide))).1,
   (C8_invalid_submission_rejected "AAPL" "ops@example.com" 0 .risesTo 3 3 []
      [] "" (Or.inl (by decide))).2 (by decide)⟩

/-- C9: a firing record emits exactly one history entry, whose id, symbol,
target_price, alert_type and recipient_email are copied from the alert,
whose actual_price is the fetched latest price, and whose triggered_at is
the timestamp also stored on the alert; the cycle appends the fired entries
to the session history. -/
theorem C9_history_entry_fields (lookup : String → Option ℚ)
    (sink : String → Option String) (now : Nat) (a : Alert) (p : ℚ)
    (s : EvalState) (ha : a.triggered = false)
    (hp : lookup a.symbol = some p) (ht : trigger_condition a p = true) :
    (processAlert lookup sink now a).2.1 =
      [{ id := a.id, symbol := a.symbol, target_price := a.target_price,
         actual_price := p, alert_type := a.alert_type,
         recipient_email := a.recipient_email, triggered_at := now }] ∧
    (processAlert lookup sink now a).1.triggered_at = some now ∧
    (check_alerts_and_notify lookup sink now s).1.history
      = s.history ++ (runAlerts lookup sink now s.alerts).2.1 := by
  refine ⟨?_, ?_, rfl⟩ <;> simp [processAlert, ha, hp, ht]

/-- Witness for C9 at a concrete input: the example alert firing at price
150 in cycle 3. -/
theorem C9_witness :
    (processAlert (fun _ => some 150) alwaysOkSink 3 exampleAlert).2.1 =
      [{ id := exampleAlert.id, symbol := exampleAlert.symbol,
         target_price := exampleAlert.target_price, actual_price := 150,
         alert_type := exampleAlert.alert_type,
         recipient_email := exampleAlert.recipient_email,
         triggered_at := 3 }] ∧
    (processAlert (fun _ => some 150) alwaysOkSink 3
        exampleAlert).1.triggered_at = some 3 ∧
    (check_alerts_and_notify (fun _ => some 150) alwaysOkSink 3
        ⟨[exampleAlert], []⟩).1.history
      = [] ++ (runAlerts (fun _ => some 150) alwaysOkSink 3
          [exampleAlert]).2.1 :=
  C9_history_entry_fields (fun _ => some 150) alwaysOkSink 3 exampleAlert 150
    ⟨[exampleAlert], []⟩ rfl rfl (by decide)

/-- C10: `check_alerts` of data.py is a pure read of the alert list: it
returns exactly the alerts whose symbol equals the given symbol and whose
stored price is at most the given current price, as a sublist in the
original order, and it is equal to a plain filter of the input list. -/
theorem C10_check_alerts_pure_filter (alerts : List DAlert) (symbol : String)
    (current_price : ℚ) (x : DAlert) :
    check_alerts alerts symbol current_price
      = alerts.filter
          (fun a => a.symbol == symbol && decide (a.price ≤ current_price)) ∧
    List.Sublist (check_alerts alerts symbol current_price) alerts ∧
    (x ∈ check_alerts alerts symbol current_price ↔
      (x ∈ alerts ∧ x.symbol = symbol ∧ x.price ≤ current_price)) := by
  have h := foldl_append_filter
    (fun a : DAlert => a.symbol == symbol && decide (a.price ≤ current_price))
    alerts []
  have heq : check_alerts alerts symbol current_price
      = alerts.filter
          (fun a => a.symbol == symbol && decide (a.price ≤ current_price)) := by
    simpa [check_alerts] using h
  refine ⟨heq, ?_, ?_⟩
  · rw [heq]
    exact List.filter_sublist _
  · rw [heq]
    simp [List.mem_filter, and_assoc]

end StockMonitor
